import Mathlib

/-!
Verification of the sandbox lifecycle and execution engine of the
`tribble-troubles` repository, shallowly embedded in Lean 4.

The repository ships two backends behind one interface:
* a local backend (`Sandbox` in `src/sandbox.ts` of the local variant and
  `SandboxManager` in `src/sandboxManager.ts`): a real directory tree plus
  spawned processes;
* a remote backend (`src/sandbox.ts`, `src/sandboxManager.ts`,
  `src/cloudflareSandboxClient.ts`): a proxy to the Cloudflare Sandbox API.

Modelling conventions used throughout this file:
* JavaScript strings are Lean `String`s; where character-level processing
  matters we work on `String.data : List Char`.
* `Date` values and ISO-8601 timestamp strings are modelled as `Int`
  millisecond counts (ISO strings of the same format compare exactly like
  their underlying millisecond values, and `Date.getTime` returns an
  integral millisecond count).
* JavaScript numbers are modelled as `Int` (the code only performs integral
  arithmetic on the values the claims are about).
* `undefined` and `null` are both modelled as `Option.none` wherever the
  code only observes them through `??` / `?.` (nullish coalescing does not
  distinguish the two).
* fallible operations return `Except String α`, carrying the thrown
  `Error`'s message.
-/

/-! ## Path confinement (`src/utils/path.ts`)

`resolveSandboxPath` relies on Node's `path.resolve` / `path.relative` for
POSIX paths.  We model a path as its list of `/`-separated segments
(`List Char` each) and implement the normalization those functions perform:
`path.resolve(root, rel)` for an absolute `root` is the normalized join of
the two segment lists, and `path.relative(from, to)` compares the two
normalized segment lists, emitting one `..` per unmatched `from` segment.
The manager always passes an absolute, normalized `rootPath`
(`path.resolve(basePath)` then `path.join(basePath, id)`). -/

/-- One `/`-separated segment of a path. -/
abbrev Seg := List Char

/-- Split a character list on `'/'`, like JavaScript `"…".split("/")`
(empty segments are kept; normalization discards them later). -/
def splitSlash : List Char → List Seg
  | [] => [[]]
  | c :: rest =>
    let r := splitSlash rest
    if c = '/' then [] :: r
    else
      match r with
      | [] => [[c]]
      | g :: gs => (c :: g) :: gs

/-- One step of POSIX path normalization over an absolute path's segment
accumulator: empty and `.` segments are dropped, `..` pops the last
accumulated segment (`/..` at the root stays at the root), anything else is
appended. -/
def normStep (acc : List Seg) (seg : Seg) : List Seg :=
  if seg = [] ∨ seg = ['.'] then acc
  else if seg = ['.', '.'] then acc.dropLast
  else acc ++ [seg]

/-- Normalize the segments of an absolute path, as `path.resolve` does. -/
def normAbs (segs : List Seg) : List Seg :=
  segs.foldl normStep []

/-- Length of the common segment-wise prefix of two paths, as computed by
`path.relative` when it walks both resolved paths. -/
def commonLen : List Seg → List Seg → Nat
  | a :: as', b :: bs' => if a = b then commonLen as' bs' + 1 else 0
  | _, _ => 0

/-- Join segments with `'/'` separators (the inverse of `splitSlash` on
clean segments); `path.relative` returns this string. -/
def joinSegs : List Seg → List Char
  | [] => []
  | [s] => s
  | s :: rest => s ++ '/' :: joinSegs rest

/-- Render an absolute path from normalized segments (what `path.resolve`
returns). -/
def renderAbs (segs : List Seg) : String :=
  String.mk ('/' :: joinSegs segs)

/-- The segment list `path.relative(fromSegs, toSegs)` produces, both
arguments already normalized. -/
def relativeSegs (f t : List Seg) : List Seg :=
  let cp := commonLen f t
  List.replicate (f.length - cp) ['.', '.'] ++ t.drop cp

/-- The effective target after the sanitization performed by
`resolveSandboxPath`: backslashes become slashes
(`targetPath.replace(/\\/g, "/")`) and leading slashes are stripped
(`sanitized.replace(/^\/+/, "")`). -/
def effectiveTarget (targetPath : String) : List Char :=
  (targetPath.data.map fun c => if c = '\\' then '/' else c).dropWhile
    fun c => c = '/'

/-- The normalized segments of the sandbox root, as `path.resolve` /
`path.relative` compute them from `rootPath`. -/
def sandboxRootSegs (rootPath : String) : List Seg :=
  normAbs (splitSlash rootPath.data)

/-- The normalized segments of
`path.resolve(rootPath, sanitizedTargetPath)`. -/
def sandboxResolvedSegs (rootPath targetPath : String) : List Seg :=
  normAbs (splitSlash rootPath.data ++ splitSlash (effectiveTarget targetPath))

/-- Model of `path.isAbsolute` on the joined character list (POSIX). -/
def startsWithSlash : List Char → Bool
  | '/' :: _ => true
  | _ => false

/-- Model of `resolveSandboxPath(rootPath, targetPath)` from `src/utils/path.ts`:
throw `"Path is required"` on an empty path; sanitize; resolve against the
(absolute) root; throw `"Path escapes sandbox root"` when
`path.relative(rootPath, resolved)` starts with `".."` or is absolute;
otherwise return the resolved path. -/
def resolveSandboxPath (rootPath targetPath : String) : Except String String :=
  if targetPath = "" then .error "Path is required"
  else if ['.', '.'].isPrefixOf
        (joinSegs (relativeSegs (sandboxRootSegs rootPath)
          (sandboxResolvedSegs rootPath targetPath)))
      || startsWithSlash
        (joinSegs (relativeSegs (sandboxRootSegs rootPath)
          (sandboxResolvedSegs rootPath targetPath))) then
    .error "Path escapes sandbox root"
  else .ok (renderAbs (sandboxResolvedSegs rootPath targetPath))

/-- The claim-side predicate "the caller-supplied path string contains a
`..` segment" (after the same sanitization the code applies). -/
def pathHasDotDotSegment (targetPath : String) : Bool :=
  (splitSlash (effectiveTarget targetPath)).any fun seg =>
    seg = ['.', '.']

/-- Segments produced by normalization are never empty, `.` or `..`
(`..` only pops, it is never appended). -/
lemma mem_foldl_normStep (l : List Seg) (acc : List Seg)
    (hacc : ∀ s ∈ acc, s ≠ [] ∧ s ≠ ['.'] ∧ s ≠ ['.', '.']) :
    ∀ s ∈ l.foldl normStep acc, s ≠ [] ∧ s ≠ ['.'] ∧ s ≠ ['.', '.'] := by
  induction l generalizing acc with
  | nil => exact hacc
  | cons x xs ih =>
    intro s hs
    refine ih (normStep acc x) ?_ s hs
    intro t ht
    by_cases h1 : x = [] ∨ x = ['.']
    · rw [normStep, if_pos h1] at ht
      exact hacc t ht
    · by_cases h2 : x = ['.', '.']
      · rw [normStep, if_neg h1, if_pos h2] at ht
        exact hacc t (List.dropLast_subset _ ht)
      · rw [normStep, if_neg h1, if_neg h2] at ht
        rcases List.mem_append.1 ht with h | h
        · exact hacc t h
        · rcases List.mem_singleton.1 h with rfl
          exact ⟨fun h => h1 (Or.inl h), fun h => h1 (Or.inr h), h2⟩

lemma mem_normAbs (l : List Seg) :
    ∀ s ∈ normAbs l, s ≠ [] ∧ s ≠ ['.'] ∧ s ≠ ['.', '.'] :=
  mem_foldl_normStep l [] (by intro s hs; cases hs)

/-- If the common-prefix length reaches `a`'s length, `b` extends `a`. -/
lemma append_of_commonLen_ge :
    ∀ (a b : List Seg), a.length ≤ commonLen a b → ∃ t, b = a ++ t := by
  intro a
  induction a with
  | nil => exact fun b _ => ⟨b, rfl⟩
  | cons x xs ih =>
    intro b h
    cases b with
    | nil => simp [commonLen] at h
    | cons y ys =>
      by_cases hxy : x = y
      · subst hxy
        simp only [commonLen, if_pos rfl, List.length_cons] at h
        obtain ⟨t, ht⟩ := ih ys (Nat.le_of_succ_le_succ h)
        exact ⟨t, by rw [ht]; rfl⟩
      · simp [commonLen, if_neg hxy] at h

/-- The `path.relative` output string starts with `".."` whenever its
segment list starts with a `..` segment. -/
lemma dotdot_isPrefixOf_joinSegs (rest : List Seg) :
    ['.', '.'].isPrefixOf (joinSegs (['.', '.'] :: rest)) = true := by
  cases rest with
  | nil => rfl
  | cons r rs => rfl

/-- C2: For every sandbox root and caller-supplied path string, if
`resolveSandboxPath` returns a resolved path rather than failing, the
result lies within the root: it is the rendering of the root's own
normalized segments followed by zero or more real (non-empty, non-`.`,
non-`..`) segments, i.e. the root itself or a descendant of the root. -/
theorem resolveSandboxPath_within (rootPath targetPath p : String)
    (h : resolveSandboxPath rootPath targetPath = .ok p) :
    ∃ extra : List Seg,
      p = renderAbs (sandboxRootSegs rootPath ++ extra) ∧
      ∀ seg ∈ extra, seg ≠ [] ∧ seg ≠ ['.'] ∧ seg ≠ ['.', '.'] := by
  rw [resolveSandboxPath] at h
  split at h
  · exact absurd h (by simp)
  · split at h
    · exact absurd h (by simp)
    · rename_i hguard
      have hok : renderAbs (sandboxResolvedSegs rootPath targetPath) = p := by
        injection h
      have hdd : ['.', '.'].isPrefixOf
          (joinSegs (relativeSegs (sandboxRootSegs rootPath)
            (sandboxResolvedSegs rootPath targetPath))) = false := by
        rcases Bool.or_eq_false_iff.1 (Bool.eq_false_iff.2 hguard) with ⟨h1, _⟩
        exact h1
      have hcp : (sandboxRootSegs rootPath).length ≤
          commonLen (sandboxRootSegs rootPath)
            (sandboxResolvedSegs rootPath targetPath) := by
        by_contra hlt
        obtain ⟨k, hk⟩ : ∃ k, (sandboxRootSegs rootPath).length -
            commonLen (sandboxRootSegs rootPath)
              (sandboxResolvedSegs rootPath targetPath) = k + 1 :=
          ⟨_, (Nat.succ_pred_eq_of_pos
            (Nat.sub_pos_of_lt (Nat.lt_of_not_le hlt))).symm⟩
        have : relativeSegs (sandboxRootSegs rootPath)
            (sandboxResolvedSegs rootPath targetPath) =
            ['.', '.'] :: (List.replicate k ['.', '.'] ++
              (sandboxResolvedSegs rootPath targetPath).drop
                (commonLen (sandboxRootSegs rootPath)
                  (sandboxResolvedSegs rootPath targetPath))) := by
          rw [relativeSegs, hk, List.replicate_succ]
          rfl
        rw [this, dotdot_isPrefixOf_joinSegs] at hdd
        cases hdd
      obtain ⟨extra, hex⟩ :=
        append_of_commonLen_ge (sandboxRootSegs rootPath)
          (sandboxResolvedSegs rootPath targetPath) hcp
      refine ⟨extra, ?_, ?_⟩
      · rw [← hok, hex]
      · intro seg hseg
        exact mem_normAbs _ seg (hex ▸ List.mem_append_right _ hseg)

/-- Witness for C2 at a concrete input: `"docs/readme.md"` inside
`"/tmp/sb"` resolves to a descendant of the root. -/
theorem resolveSandboxPath_within_witness :
    ∃ extra : List Seg,
      "/tmp/sb/docs/readme.md" = renderAbs (sandboxRootSegs "/tmp/sb" ++ extra) ∧
      ∀ seg ∈ extra, seg ≠ [] ∧ seg ≠ ['.'] ∧ seg ≠ ['.', '.'] :=
  resolveSandboxPath_within "/tmp/sb" "docs/readme.md" "/tmp/sb/docs/readme.md" rfl

/-- C1 counterexample: The claim says every path containing a `..`
segment fails with `PathEscapesRoot` even when later segments bring the
resolved path back inside the root.  The code instead performs a resolved
check: `"a/../b"` contains a `..` segment, yet it resolves to
`"/tmp/sb/b"`, inside the root, and `resolveSandboxPath` succeeds. -/
theorem resolveSandboxPath_dotdot_counterexample :
    pathHasDotDotSegment "a/../b" = true ∧
    resolveSandboxPath "/tmp/sb" "a/../b" = Except.ok "/tmp/sb/b" :=
  ⟨rfl, rfl⟩

/-- C1 amended: `resolveSandboxPath` fails with the
`PathEscapesRoot` error for every non-empty caller-supplied path whose
final resolved location lies outside the sandbox root (in particular any
`..` segments that climb above the root); a `..` segment that is cancelled
by an earlier segment, so that the resolved path stays inside the root, is
permitted. -/
theorem resolveSandboxPath_escape (rootPath targetPath : String)
    (hne : targetPath ≠ "")
    (hout : ∀ extra : List Seg,
      sandboxResolvedSegs rootPath targetPath ≠ sandboxRootSegs rootPath ++ extra) :
    resolveSandboxPath rootPath targetPath =
      Except.error "Path escapes sandbox root" := by
  have hcp : commonLen (sandboxRootSegs rootPath)
      (sandboxResolvedSegs rootPath targetPath) <
      (sandboxRootSegs rootPath).length := by
    by_contra hge
    obtain ⟨t, ht⟩ := append_of_commonLen_ge _ _ (Nat.le_of_not_lt hge)
    exact hout t ht
  obtain ⟨k, hk⟩ : ∃ k, (sandboxRootSegs rootPath).length -
      commonLen (sandboxRootSegs rootPath)
        (sandboxResolvedSegs rootPath targetPath) = k + 1 :=
    ⟨_, (Nat.succ_pred_eq_of_pos (Nat.sub_pos_of_lt hcp)).symm⟩
  have hrel : relativeSegs (sandboxRootSegs rootPath)
      (sandboxResolvedSegs rootPath targetPath) =
      ['.', '.'] :: (List.replicate k ['.', '.'] ++
        (sandboxResolvedSegs rootPath targetPath).drop
          (commonLen (sandboxRootSegs rootPath)
            (sandboxResolvedSegs rootPath targetPath))) := by
    rw [relativeSegs, hk, List.replicate_succ]
    rfl
  have hpre : ['.', '.'].isPrefixOf
      (joinSegs (relativeSegs (sandboxRootSegs rootPath)
        (sandboxResolvedSegs rootPath targetPath))) = true := by
    rw [hrel]
    exact dotdot_isPrefixOf_joinSegs _
  rw [resolveSandboxPath, if_neg hne, hpre]
  simp

/-- Witness for the amended C1 at a concrete input: `"../outside.txt"`
resolves above `"/tmp/sb"` and is rejected. -/
theorem resolveSandboxPath_escape_witness :
    resolveSandboxPath "/tmp/sb" "../outside.txt" =
      Except.error "Path escapes sandbox root" :=
  resolveSandboxPath_escape "/tmp/sb" "../outside.txt" (by decide)
    (by
      intro extra h
      have h2 : ["tmp".data, "outside.txt".data] = ["tmp".data, "sb".data] :=
        congrArg (List.take 2) h
      exact absurd h2 (by decide))

/-! ## Local backend: `Sandbox` (local variant of `src/sandbox.ts`)

The local `Sandbox` class holds `createdAt`/`lastUsedAt` `Date`s and an
optional `ttlSeconds`.  The constructor evaluates `new Date()` twice (first
for `createdAt`, then for `lastUsedAt`), and `touch()` sets `lastUsedAt` to
the current time.  Every filesystem/exec operation ends with
`this.touch()`. -/

structure LocalSandbox where
  id : String
  rootPath : String
  createdAtMs : Int
  lastUsedAtMs : Int
  /-- `undefined` (constructor option not given) and `null` are both
  `none`: the code only inspects the field with `== null`. -/
  ttlSeconds : Option Int
deriving Repr, DecidableEq

/-- Model of `Sandbox.touch()`: set `lastUsedAt` to the current time. -/
def LocalSandbox.touch (s : LocalSandbox) (nowMs : Int) : LocalSandbox :=
  { s with lastUsedAtMs := nowMs }

/-- Model of `Sandbox.isExpired(referenceDate)`: `false` when `ttlSeconds == null`;
otherwise `referenceDate > new Date(lastUsedAt.getTime() + ttlSeconds * 1000)`. -/
def LocalSandbox.isExpired (s : LocalSandbox) (referenceMs : Int) : Bool :=
  match s.ttlSeconds with
  | none => false
  | some ttl => decide (referenceMs > s.lastUsedAtMs + ttl * 1000)

/-- Run a sequence of successful operations against a local sandbox,
recording only their metadata effect: every operation (`exec`,
`writeFile`, `readFile`, `deletePath`, `ensureDirectory`, `listDirectory`)
ends with `this.touch()` at its completion time. -/
def LocalSandbox.runOps (s : LocalSandbox) (opTimes : List Int) : LocalSandbox :=
  opTimes.foldl LocalSandbox.touch s

/-- C3: With a non-null `ttlSeconds`, `isExpired(referenceTime)` is
true exactly when the reference time strictly exceeds
`lastUsedAt + ttlSeconds * 1000`; with `ttlSeconds` null or absent it is
false for every reference time. -/
theorem isExpired_iff (s : LocalSandbox) (referenceMs : Int) :
    (∀ ttl, s.ttlSeconds = some ttl →
      (s.isExpired referenceMs = true ↔
        referenceMs > s.lastUsedAtMs + ttl * 1000)) ∧
    (s.ttlSeconds = none → s.isExpired referenceMs = false) := by
  constructor
  · intro ttl httl
    rw [LocalSandbox.isExpired, httl]
    exact decide_eq_true_iff
  · intro httl
    rw [LocalSandbox.isExpired, httl]

/-- Witness for C3 at concrete inputs: a sandbox with `ttlSeconds = 2`
last used at 100 ms is expired at 2200 ms, and a sandbox without a TTL is
never expired. -/
theorem isExpired_iff_witness :
    (LocalSandbox.isExpired ⟨"a", "/r/a", 0, 100, some 2⟩ 2200 = true) ∧
    (LocalSandbox.isExpired ⟨"b", "/r/b", 0, 100, none⟩ 999999 = false) :=
  ⟨((isExpired_iff ⟨"a", "/r/a", 0, 100, some 2⟩ 2200).1 2 rfl).2 (by decide),
   (isExpired_iff ⟨"b", "/r/b", 0, 100, none⟩ 999999).2 rfl⟩

/-! ## Local backend: `Sandbox.exec` result construction

`exec` spawns the child process and resolves, from the `close` handler,
an `ExecResult` built from the captured output, the exit code (`null` when
the process was killed before exiting normally), the `timedOut` flag set
by the timeout handler, and the wall-clock timestamps.  Launch failures
reject instead of producing a result, so every returned `ExecResult` is
built by this constructor. -/

structure ExecResultM where
  command : String
  args : List String
  stdout : String
  stderr : String
  exitCode : Option Int
  success : Bool
  durationMs : Int
  timedOut : Bool
  startedAtMs : Int
  finishedAtMs : Int
deriving Repr, DecidableEq

/-- The result object resolved by the `close` handler of `Sandbox.exec`:
`success: !timedOut && exitCode === 0` (a `null` exit code is not `0`),
`durationMs: finishedAt.getTime() - startedAt.getTime()`. -/
def buildExecResult (command : String) (args : List String)
    (stdoutStr stderrStr : String) (exitCode : Option Int) (timedOut : Bool)
    (startedAtMs finishedAtMs : Int) : ExecResultM :=
  { command := command
    args := args
    stdout := stdoutStr
    stderr := stderrStr
    exitCode := exitCode
    success := !timedOut && exitCode == some 0
    durationMs := finishedAtMs - startedAtMs
    timedOut := timedOut
    startedAtMs := startedAtMs
    finishedAtMs := finishedAtMs }

/-- C5: An `ExecResult` returned by `exec` has `success = true` exactly
when it did not time out and the exit code is exactly `0`; in particular a
timed-out result is never successful, whatever exit code the forced kill
produced. -/
theorem execResult_success_iff (command : String) (args : List String)
    (stdoutStr stderrStr : String) (exitCode : Option Int) (timedOut : Bool)
    (startedAtMs finishedAtMs : Int) :
    (buildExecResult command args stdoutStr stderrStr exitCode timedOut
        startedAtMs finishedAtMs).success = true ↔
      timedOut = false ∧ exitCode = some 0 := by
  rw [buildExecResult]
  cases timedOut <;> cases exitCode <;>
    simp [Option.some.injEq]

/-! ## Local backend: `SandboxManager` (`src/sandboxManager.ts`, local variant)

The registry is a `Map<string, Sandbox>` (insertion-ordered, unique keys),
modelled as an association list with `Nodup` keys.  `deleteSandbox` looks
the id up, removes the entry and disposes the sandbox; `pruneExpired`
iterates the entries, deleting every expired one and counting the
deletions.  Only the registry map is modelled; `sandbox.dispose()`
(recursive directory removal) acts outside of it. -/

abbrev Registry := List (String × LocalSandbox)

/-- Model of `SandboxManager.deleteSandbox(id)`: return `false` leaving the registry
unchanged when the id is absent; otherwise remove the entry and return
`true`. -/
def managerDeleteSandbox (reg : Registry) (id : String) : Registry × Bool :=
  if reg.any (fun e => e.1 = id) then
    (reg.filter (fun e => ¬ (e.1 = id)), true)
  else (reg, false)

/-- The `for (const [id, sandbox] of this.sandboxes.entries())` loop of
`pruneExpired`: successively delete every entry whose sandbox is expired
at the reference time, counting removals.  (Deleting the entry being
visited does not disturb a JavaScript `Map` iterator, so iterating the
entry list captured at call time is equivalent.) -/
def pruneLoop (referenceMs : Int) :
    List (String × LocalSandbox) → Registry → Nat → Registry × Nat
  | [], reg, removed => (reg, removed)
  | (id, sb) :: rest, reg, removed =>
    if sb.isExpired referenceMs then
      pruneLoop referenceMs rest (managerDeleteSandbox reg id).1 (removed + 1)
    else
      pruneLoop referenceMs rest reg removed

/-- Model of `SandboxManager.pruneExpired(referenceDate)`. -/
def managerPruneExpired (reg : Registry) (referenceMs : Int) : Registry × Nat :=
  pruneLoop referenceMs reg reg 0

lemma filter_ne_key_of_not_mem (l : Registry) (id : String)
    (h : ∀ e ∈ l, e.1 ≠ id) :
    l.filter (fun e => ¬ (e.1 = id)) = l := by
  induction l with
  | nil => rfl
  | cons x xs ih =>
    rw [List.filter_cons]
    rw [if_pos (by simpa using h x (List.mem_cons_self x xs))]
    rw [ih fun e he => h e (List.mem_cons_of_mem x he)]

lemma pruneLoop_spec (referenceMs : Int) (l : List (String × LocalSandbox)) :
    ∀ (pre : Registry) (n : Nat),
    ((pre ++ l).map Prod.fst).Nodup →
    pruneLoop referenceMs l (pre ++ l) n =
      (pre ++ l.filter (fun e => ¬ (e.2.isExpired referenceMs = true)), n +
        (l.filter (fun e => e.2.isExpired referenceMs = true)).length) := by
  induction l with
  | nil => intro pre n _; simp [pruneLoop]
  | cons x rest ih =>
    intro pre n hnd
    obtain ⟨id, sb⟩ := x
    have hsplit := List.nodup_append.1
      (show ((pre.map Prod.fst) ++ (id :: rest.map Prod.fst)).Nodup by
        simpa using hnd)
    have hid_pre : ∀ e ∈ pre, e.1 ≠ id := by
      intro e he heq
      exact hsplit.2.2 (heq ▸ List.mem_map_of_mem Prod.fst he)
        (List.mem_cons_self _ _)
    have hid_rest : ∀ e ∈ rest, e.1 ≠ id := by
      intro e he heq
      exact (List.nodup_cons.1 hsplit.2.1).1
        (heq ▸ List.mem_map_of_mem Prod.fst he)
    by_cases hexp : sb.isExpired referenceMs = true
    · rw [pruneLoop, if_pos hexp]
      have hdel : (managerDeleteSandbox (pre ++ (id, sb) :: rest) id).1 =
          pre ++ rest := by
        rw [managerDeleteSandbox,
          if_pos (by
            refine List.any_eq_true.2 ⟨(id, sb), List.mem_append_right _ ?_, by simp⟩
            exact List.mem_cons_self _ _)]
        simp only [List.filter_append, List.filter_cons]
        rw [if_neg (by simp), filter_ne_key_of_not_mem pre id hid_pre,
          filter_ne_key_of_not_mem rest id hid_rest]
      rw [hdel]
      have hnd' : ((pre ++ rest).map Prod.fst).Nodup := by
        have hsub : ((pre ++ rest).map Prod.fst).Sublist
            ((pre ++ (id, sb) :: rest).map Prod.fst) := by
          simp only [List.map_append, List.map_cons]
          exact List.Sublist.append (List.Sublist.refl _)
            (List.sublist_cons_self _ _)
        exact hsub.nodup hnd
      rw [ih (pre) (n + 1) hnd']
      rw [List.filter_cons, List.filter_cons, if_neg (by simpa using hexp),
        if_pos (by simpa using hexp)]
      simp [Nat.add_comm, Nat.add_assoc, Nat.add_left_comm]
    · rw [pruneLoop, if_neg hexp]
      have hshift : pre ++ (id, sb) :: rest = (pre ++ [(id, sb)]) ++ rest := by
        simp
      rw [hshift, ih (pre ++ [(id, sb)]) n (by rw [← hshift]; exact hnd)]
      rw [List.filter_cons, List.filter_cons, if_pos (by simpa using hexp),
        if_neg (by simpa using hexp)]
      simp

/-- C4: For every registry state with unique ids and every reference
time, the local `pruneExpired` removes exactly the sandboxes whose
`isExpired(referenceTime)` is true at call time, keeps every other sandbox
registered (in order), and returns the number of sandboxes removed. -/
theorem pruneExpired_spec (reg : Registry) (referenceMs : Int)
    (hnd : (reg.map Prod.fst).Nodup) :
    (managerPruneExpired reg referenceMs).1 =
      reg.filter (fun e => ¬ (e.2.isExpired referenceMs = true)) ∧
    (managerPruneExpired reg referenceMs).2 =
      (reg.filter (fun e => e.2.isExpired referenceMs = true)).length := by
  have h := pruneLoop_spec referenceMs reg [] 0 (by simpa using hnd)
  rw [managerPruneExpired]
  simp only [List.nil_append] at h
  rw [h]
  exact ⟨rfl, by simp⟩

/-- Witness for C4 at a concrete registry: of two sandboxes with TTL 1 s
last used at 0 ms and one without TTL, pruning at 5000 ms removes exactly
the two expired ones and returns 2. -/
theorem pruneExpired_spec_witness :
    (managerPruneExpired
        [("a", ⟨"a", "/r/a", 0, 0, some 1⟩),
         ("b", ⟨"b", "/r/b", 0, 0, none⟩),
         ("c", ⟨"c", "/r/c", 0, 0, some 1⟩)] 5000).1 =
      [("b", ⟨"b", "/r/b", 0, 0, none⟩)] ∧
    (managerPruneExpired
        [("a", ⟨"a", "/r/a", 0, 0, some 1⟩),
         ("b", ⟨"b", "/r/b", 0, 0, none⟩),
         ("c", ⟨"c", "/r/c", 0, 0, some 1⟩)] 5000).2 = 2 := by
  have h := pruneExpired_spec
    [("a", ⟨"a", "/r/a", 0, 0, some 1⟩),
     ("b", ⟨"b", "/r/b", 0, 0, none⟩),
     ("c", ⟨"c", "/r/c", 0, 0, some 1⟩)] 5000 (by decide)
  exact ⟨h.1.trans (by decide), h.2.trans (by decide)⟩

/-! ## Local backend: file store (`writeFile` / `readFile`)

`writeFile` decodes the request content with
`Buffer.from(content, encoding === "base64" ? "base64" : "utf8")`, writes
the bytes, touches the sandbox and returns `this.readFile(...)` for the
same path and encoding; `readFile` reads the bytes back and re-encodes
them with `buffer.toString(encoding)`.  We model the byte codecs that
`Buffer` implements (UTF-8 for valid Unicode strings, RFC 4648 base64)
and the filesystem as a flat map from absolute paths to byte contents with
a modification time (directory structure and `createDirectories` are not
modelled: the written file's parent is assumed to exist, and entries of
the map are regular files, so the `stat.isFile()` check passes). -/

/-- UTF-8 encoding of one Unicode scalar value (one JavaScript string code
point; Lean `Char` carries exactly the valid scalar values). -/
def utf8EncodeChar (c : Char) : List Nat :=
  let v := c.toNat
  if v < 0x80 then [v]
  else if v < 0x800 then [0xC0 + v / 64, 0x80 + v % 64]
  else if v < 0x10000 then
    [0xE0 + v / 4096, 0x80 + v / 64 % 64, 0x80 + v % 64]
  else
    [0xF0 + v / 262144, 0x80 + v / 4096 % 64, 0x80 + v / 64 % 64,
      0x80 + v % 64]

/-- Model of `Buffer.from(string, "utf8")` as a byte list. -/
def utf8EncodeChars : List Char → List Nat
  | [] => []
  | c :: rest => utf8EncodeChar c ++ utf8EncodeChars rest

/-- Model of `buffer.toString("utf8")` on well-formed UTF-8 input, written as a
byte-at-a-time state machine: `pending` continuation bytes of the current
code point remain and `acc` holds its already-consumed high bits. -/
def utf8DecodeAux : List Nat → Nat → Nat → List Char
  | [], _, _ => []
  | b :: rest, 0, _ =>
    if b < 128 then Char.ofNat b :: utf8DecodeAux rest 0 0
    else if b < 224 then utf8DecodeAux rest 1 (b - 192)
    else if b < 240 then utf8DecodeAux rest 2 (b - 224)
    else utf8DecodeAux rest 3 (b - 240)
  | b :: rest, 1, acc =>
    Char.ofNat (acc * 64 + (b - 128)) :: utf8DecodeAux rest 0 0
  | b :: rest, pending + 2, acc =>
    utf8DecodeAux rest (pending + 1) (acc * 64 + (b - 128))

def utf8DecodeChars (l : List Nat) : List Char := utf8DecodeAux l 0 0

lemma utf8DecodeAux_encodeChar (c : Char) (rest : List Nat) :
    utf8DecodeAux (utf8EncodeChar c ++ rest) 0 0 =
      c :: utf8DecodeAux rest 0 0 := by
  have hvalid : c.toNat < 1114112 := by
    rcases c.valid with h | ⟨_, h⟩
    · calc c.val.toNat < 0xd800 := h
        _ < 1114112 := by norm_num
    · exact h
  rw [utf8EncodeChar]
  by_cases h1 : c.toNat < 128
  · rw [if_pos h1]
    show utf8DecodeAux (c.toNat :: rest) 0 0 = _
    rw [utf8DecodeAux, if_pos h1, Char.ofNat_toNat]
  · rw [if_neg h1]
    by_cases h2 : c.toNat < 2048
    · rw [if_pos h2]
      show utf8DecodeAux ((192 + c.toNat / 64) :: (128 + c.toNat % 64) :: rest) 0 0 = _
      rw [utf8DecodeAux, if_neg (by omega), if_pos (by omega), utf8DecodeAux]
      rw [show (192 + c.toNat / 64 - 192) * 64 + (128 + c.toNat % 64 - 128) = c.toNat by
        omega]
      rw [Char.ofNat_toNat]
    · rw [if_neg h2]
      by_cases h3 : c.toNat < 65536
      · rw [if_pos h3]
        show utf8DecodeAux ((224 + c.toNat / 4096) ::
          (128 + c.toNat / 64 % 64) :: (128 + c.toNat % 64) :: rest) 0 0 = _
        rw [utf8DecodeAux, if_neg (by omega), if_neg (by omega), if_pos (by omega),
          utf8DecodeAux, utf8DecodeAux]
        rw [show ((224 + c.toNat / 4096 - 224) * 64 + (128 + c.toNat / 64 % 64 - 128)) * 64
            + (128 + c.toNat % 64 - 128) = c.toNat by omega]
        rw [Char.ofNat_toNat]
      · rw [if_neg h3]
        show utf8DecodeAux ((240 + c.toNat / 262144) :: (128 + c.toNat / 4096 % 64) ::
          (128 + c.toNat / 64 % 64) :: (128 + c.toNat % 64) :: rest) 0 0 = _
        rw [utf8DecodeAux, if_neg (by omega), if_neg (by omega), if_neg (by omega),
          utf8DecodeAux, utf8DecodeAux, utf8DecodeAux]
        rw [show (((240 + c.toNat / 262144 - 240) * 64 + (128 + c.toNat / 4096 % 64 - 128)) * 64
            + (128 + c.toNat / 64 % 64 - 128)) * 64 + (128 + c.toNat % 64 - 128) = c.toNat by
          omega]
        rw [Char.ofNat_toNat]

/-- Decoding inverts encoding: UTF-8 round-trips every Unicode string. -/
lemma utf8_roundtrip_chars (cs : List Char) :
    utf8DecodeChars (utf8EncodeChars cs) = cs := by
  rw [utf8DecodeChars]
  induction cs with
  | nil => rfl
  | cons c rest ih =>
    rw [utf8EncodeChars, utf8DecodeAux_encodeChar, ih]

/-- The RFC 4648 base64 alphabet used by `Buffer`. -/
def base64Alphabet : List Char :=
  "ABCDEFGHIJKLMNOPQRSTUVWXYZabcdefghijklmnopqrstuvwxyz0123456789+/".data

def b64Char (n : Nat) : Char := base64Alphabet.getD n 'A'

def b64Val (c : Char) : Nat := base64Alphabet.indexOf c

/-- Model of `buffer.toString("base64")`: emit four alphabet characters per three
bytes, padding the final partial group with `=`. -/
def base64EncodeBytes : List Nat → List Char
  | [] => []
  | [b0] => [b64Char (b0 / 4), b64Char (b0 % 4 * 16), '=', '=']
  | [b0, b1] =>
    [b64Char (b0 / 4), b64Char (b0 % 4 * 16 + b1 / 16), b64Char (b1 % 16 * 4), '=']
  | b0 :: b1 :: b2 :: rest =>
    b64Char (b0 / 4) :: b64Char (b0 % 4 * 16 + b1 / 16) ::
      b64Char (b1 % 16 * 4 + b2 / 64) :: b64Char (b2 % 64) ::
        base64EncodeBytes rest

/-- Model of `Buffer.from(string, "base64")` on well-formed base64 input: decode
four characters to three bytes, with `=`-padding closing the stream. -/
def base64DecodeChars : List Char → List Nat
  | c0 :: c1 :: c2 :: c3 :: rest =>
    if c2 = '=' then [b64Val c0 * 4 + b64Val c1 / 16]
    else if c3 = '=' then
      [b64Val c0 * 4 + b64Val c1 / 16, b64Val c1 % 16 * 16 + b64Val c2 / 4]
    else
      (b64Val c0 * 4 + b64Val c1 / 16) ::
        (b64Val c1 % 16 * 16 + b64Val c2 / 4) ::
          (b64Val c2 % 4 * 64 + b64Val c3) :: base64DecodeChars rest
  | _ => []

lemma b64Val_b64Char (n : Nat) (h : n < 64) : b64Val (b64Char n) = n := by
  interval_cases n <;> rfl

lemma b64Char_ne_pad (n : Nat) (h : n < 64) : b64Char n ≠ '=' := by
  interval_cases n <;> decide

/-- Decoding inverts encoding: base64 round-trips every byte sequence. -/
lemma base64_roundtrip (bytes : List Nat) (hb : ∀ b ∈ bytes, b < 256) :
    base64DecodeChars (base64EncodeBytes bytes) = bytes := by
  induction bytes using base64EncodeBytes.induct with
  | case1 => rfl
  | case2 b0 =>
    have h0 : b0 < 256 := hb b0 (by simp)
    rw [base64EncodeBytes, base64DecodeChars, if_pos rfl]
    rw [b64Val_b64Char _ (by omega), b64Val_b64Char _ (by omega)]
    rw [show b0 / 4 * 4 + b0 % 4 * 16 / 16 = b0 by omega]
  | case3 b0 b1 =>
    have h0 : b0 < 256 := hb b0 (by simp)
    have h1 : b1 < 256 := hb b1 (by simp)
    rw [base64EncodeBytes, base64DecodeChars,
      if_neg (b64Char_ne_pad _ (by omega)), if_pos rfl]
    rw [b64Val_b64Char _ (by omega), b64Val_b64Char _ (by omega),
      b64Val_b64Char _ (by omega)]
    rw [show b0 / 4 * 4 + (b0 % 4 * 16 + b1 / 16) / 16 = b0 by omega,
      show (b0 % 4 * 16 + b1 / 16) % 16 * 16 + b1 % 16 * 4 / 4 = b1 by omega]
  | case4 b0 b1 b2 rest ih =>
    have h0 : b0 < 256 := hb b0 (by simp)
    have h1 : b1 < 256 := hb b1 (by simp)
    have h2 : b2 < 256 := hb b2 (by simp)
    rw [base64EncodeBytes, base64DecodeChars,
      if_neg (b64Char_ne_pad _ (by omega)), if_neg (b64Char_ne_pad _ (by omega))]
    rw [b64Val_b64Char _ (by omega), b64Val_b64Char _ (by omega),
      b64Val_b64Char _ (by omega), b64Val_b64Char _ (by omega)]
    rw [show b0 / 4 * 4 + (b0 % 4 * 16 + b1 / 16) / 16 = b0 by omega,
      show (b0 % 4 * 16 + b1 / 16) % 16 * 16 + (b1 % 16 * 4 + b2 / 64) / 4 = b1 by omega,
      show (b1 % 16 * 4 + b2 / 64) % 4 * 64 + b2 % 64 = b2 by omega]
    rw [ih (fun b h => hb b (by simp [h]))]

/-- A file's description as returned by `writeFile` / `readFile`
(`FileContent` in `src/types.ts`). -/
structure FileContentM where
  path : String
  encoding : String
  content : String
  size : Nat
  modifiedAtMs : Int
deriving Repr, DecidableEq

/-- The filesystem, as the file store observes it: a map from absolute
paths to byte contents with a modification time.  The head entry wins,
so prepending models overwriting. -/
abbrev FileSystem := List (String × List Nat × Int)

def fsLookup : FileSystem → String → Option (List Nat × Int)
  | [], _ => none
  | (p, bytes, m) :: rest, q => if p = q then some (bytes, m) else fsLookup rest q

/-- Model of `Buffer.from(content, encoding === "base64" ? "base64" : "utf8")`. -/
def bufferFromContent (content : String) (encoding : String) : List Nat :=
  if encoding = "base64" then base64DecodeChars content.data
  else utf8EncodeChars content.data

/-- Model of `buffer.toString(encoding === "base64" ? "base64" : "utf8")`. -/
def contentFromBuffer (bytes : List Nat) (encoding : String) : String :=
  if encoding = "base64" then String.mk (base64EncodeBytes bytes)
  else String.mk (utf8DecodeChars bytes)

/-- Model of `relativeSandboxPath(rootPath, absolutePath)` from `src/utils/path.ts`:
`path.relative(rootPath, absolutePath) || "."` (POSIX separators). -/
def relativeSandboxPath (rootPath absolutePath : String) : String :=
  let rel := joinSegs (relativeSegs (sandboxRootSegs rootPath)
    (sandboxRootSegs absolutePath))
  if rel = [] then "." else String.mk rel

/-- Model of `Sandbox.readFile(options)`: require a path, resolve it inside the
root, `fs.stat` (fails when nothing exists; map entries are regular files,
so the `isFile` check passes), read the bytes and re-encode them. -/
def sbReadFile (fs : FileSystem) (rootPath targetPath encoding : String) :
    Except String FileContentM :=
  if targetPath = "" then .error "Path is required"
  else
    match resolveSandboxPath rootPath targetPath with
    | .error e => .error e
    | .ok absolutePath =>
      match fsLookup fs absolutePath with
      | none => .error "ENOENT"
      | some (bytes, mtime) =>
        .ok { path := relativeSandboxPath rootPath absolutePath
              encoding := encoding
              content := contentFromBuffer bytes encoding
              size := bytes.length
              modifiedAtMs := mtime }

/-- Model of `Sandbox.writeFile(options)`: require a path, resolve it inside the
root, decode the content per the requested encoding, persist the bytes
(stamped with the current time) and return the freshly read-back file
description.  (`createDirectories` is not modelled; see the section
comment.) -/
def sbWriteFile (fs : FileSystem) (rootPath targetPath content encoding : String)
    (nowMs : Int) : Except String (FileSystem × FileContentM) :=
  if targetPath = "" then .error "Path is required"
  else
    match resolveSandboxPath rootPath targetPath with
    | .error e => .error e
    | .ok absolutePath =>
      let fs' : FileSystem :=
        (absolutePath, bufferFromContent content encoding, nowMs) :: fs
      match sbReadFile fs' rootPath targetPath encoding with
      | .error e => .error e
      | .ok fc => .ok (fs', fc)

/-- C9: Writing a file with encoding `utf8` and reading the same path
back with encoding `utf8` returns content equal to what was written;
writing base64-encoded binary content and reading it back with encoding
`base64` returns byte-identical content. -/
theorem writeFile_readFile_roundtrip (fs : FileSystem)
    (rootPath targetPath : String) (nowMs : Int) :
    (∀ (content : String) (absolutePath : String),
      resolveSandboxPath rootPath targetPath = .ok absolutePath →
      ∃ fs' ret,
        sbWriteFile fs rootPath targetPath content "utf8" nowMs = .ok (fs', ret) ∧
        ret.content = content ∧
        sbReadFile fs' rootPath targetPath "utf8" = .ok ret) ∧
    (∀ (bytes : List Nat), (∀ b ∈ bytes, b < 256) →
      ∀ absolutePath : String,
      resolveSandboxPath rootPath targetPath = .ok absolutePath →
      ∃ fs' ret,
        sbWriteFile fs rootPath targetPath (String.mk (base64EncodeBytes bytes))
          "base64" nowMs = .ok (fs', ret) ∧
        base64DecodeChars ret.content.data = bytes ∧
        sbReadFile fs' rootPath targetPath "base64" = .ok ret) := by
  have hne : ∀ absolutePath : String,
      resolveSandboxPath rootPath targetPath = .ok absolutePath →
      ¬ targetPath = "" := by
    intro absolutePath h he
    rw [resolveSandboxPath, if_pos he] at h
    cases h
  constructor
  · intro content absolutePath h
    have hread : sbReadFile
        ((absolutePath, bufferFromContent content "utf8", nowMs) :: fs)
        rootPath targetPath "utf8" =
        .ok { path := relativeSandboxPath rootPath absolutePath
              encoding := "utf8"
              content := contentFromBuffer (bufferFromContent content "utf8") "utf8"
              size := (bufferFromContent content "utf8").length
              modifiedAtMs := nowMs } := by
      have hlook : fsLookup
          ((absolutePath, bufferFromContent content "utf8", nowMs) :: fs)
          absolutePath = some (bufferFromContent content "utf8", nowMs) := by
        rw [fsLookup, if_pos rfl]
      simp only [sbReadFile, if_neg (hne absolutePath h), h, hlook]
    refine ⟨(absolutePath, bufferFromContent content "utf8", nowMs) :: fs, _,
      ?_, ?_, hread⟩
    · simp only [sbWriteFile, if_neg (hne absolutePath h), h, hread]
    · show contentFromBuffer (bufferFromContent content "utf8") "utf8" = content
      rw [contentFromBuffer, if_neg (by decide), bufferFromContent,
        if_neg (by decide), utf8_roundtrip_chars]
  · intro bytes hb absolutePath h
    have hread : sbReadFile
        ((absolutePath,
          bufferFromContent (String.mk (base64EncodeBytes bytes)) "base64",
          nowMs) :: fs)
        rootPath targetPath "base64" =
        .ok { path := relativeSandboxPath rootPath absolutePath
              encoding := "base64"
              content := contentFromBuffer
                (bufferFromContent (String.mk (base64EncodeBytes bytes)) "base64")
                "base64"
              size := (bufferFromContent
                (String.mk (base64EncodeBytes bytes)) "base64").length
              modifiedAtMs := nowMs } := by
      have hlook : fsLookup
          ((absolutePath,
            bufferFromContent (String.mk (base64EncodeBytes bytes)) "base64",
            nowMs) :: fs)
          absolutePath = some
            (bufferFromContent (String.mk (base64EncodeBytes bytes)) "base64",
              nowMs) := by
        rw [fsLookup, if_pos rfl]
      simp only [sbReadFile, if_neg (hne absolutePath h), h, hlook]
    refine ⟨(absolutePath,
      bufferFromContent (String.mk (base64EncodeBytes bytes)) "base64",
      nowMs) :: fs, _, ?_, ?_, hread⟩
    · simp only [sbWriteFile, if_neg (hne absolutePath h), h, hread]
    · show base64DecodeChars (contentFromBuffer
        (bufferFromContent (String.mk (base64EncodeBytes bytes)) "base64")
        "base64").data = bytes
      rw [contentFromBuffer, if_pos rfl, bufferFromContent, if_pos rfl]
      show base64DecodeChars (base64EncodeBytes
        (base64DecodeChars (base64EncodeBytes bytes))) = bytes
      rw [base64_roundtrip bytes hb, base64_roundtrip bytes hb]

/-- Witness for C9 at concrete inputs: the text `"Hello Sandbox!"` and the
bytes `[72, 0, 255, 254]` both round-trip through `"docs/hello.txt"` in
the sandbox rooted at `"/tmp/sb"`. -/
theorem writeFile_readFile_roundtrip_witness :
    (∃ fs' ret,
      sbWriteFile [] "/tmp/sb" "docs/hello.txt" "Hello Sandbox!" "utf8" 1000 =
        .ok (fs', ret) ∧
      ret.content = "Hello Sandbox!" ∧
      sbReadFile fs' "/tmp/sb" "docs/hello.txt" "utf8" = .ok ret) ∧
    (∃ fs' ret,
      sbWriteFile [] "/tmp/sb" "docs/hello.txt"
          (String.mk (base64EncodeBytes [72, 0, 255, 254])) "base64" 1000 =
        .ok (fs', ret) ∧
      base64DecodeChars ret.content.data = [72, 0, 255, 254] ∧
      sbReadFile fs' "/tmp/sb" "docs/hello.txt" "base64" = .ok ret) :=
  ⟨(writeFile_readFile_roundtrip [] "/tmp/sb" "docs/hello.txt" 1000).1
      "Hello Sandbox!" "/tmp/sb/docs/hello.txt" rfl,
   (writeFile_readFile_roundtrip [] "/tmp/sb" "docs/hello.txt" 1000).2
      [72, 0, 255, 254] (by decide) "/tmp/sb/docs/hello.txt" rfl⟩

/-! ## Remote backend: response envelope unwrapping
(`src/cloudflareSandboxClient.ts`, `request`)

After a 2xx response, `request` parses the body (`parsed` is `undefined`
for an empty or unparsable body), returns `undefined` when `parsed` is
falsy, unwraps the generic Cloudflare envelope when the body is an object
carrying both a `success` and a `result` key — throwing the first listed
error message (or a default) when `success` is falsy — and otherwise
returns the parsed body itself.  JSON values are modelled by `Json`;
object keys are unique (as produced by `JSON.parse`). -/

inductive Json where
  | null : Json
  | bool : Bool → Json
  | num : Int → Json
  | str : String → Json
  | arr : List Json → Json
  | obj : List (String × Json) → Json

/-- Property lookup on an object (`value.key` / `"key" in value`); `none`
on any non-object, like the `?.` accesses the code uses. -/
def jsonField : Json → String → Option Json
  | .obj fields, key => fields.lookup key
  | _, _ => none

/-- JavaScript truthiness of a JSON value. -/
def jsTruthy : Json → Bool
  | .null => false
  | .bool b => b
  | .num n => !(n = 0)
  | .str s => !(s = "")
  | .arr _ => true
  | .obj _ => true

/-- Model of `isCloudflareEnvelope(value)`: a non-null object with both a `success`
and a `result` key. -/
def isCloudflareEnvelope (v : Json) : Bool :=
  match v with
  | .obj _ => (jsonField v "success").isSome && (jsonField v "result").isSome
  | _ => false

/-- Model of `parsed.errors?.[0]?.message ?? "Unknown Cloudflare Sandbox API error"`:
the first error entry's message (declared `string` by
`CloudflareApiResponse`), or the default when the errors list is empty,
absent, or shaped otherwise. -/
def envelopeErrorMessage (v : Json) : String :=
  match jsonField v "errors" with
  | some (.arr (e :: _)) =>
    match jsonField e "message" with
    | some (.str m) => m
    | _ => "Unknown Cloudflare Sandbox API error"
  | _ => "Unknown Cloudflare Sandbox API error"

/-- The tail of `CloudflareSandboxClient.request` on a 2xx response:
`parsed` is the parsed body (`none` when the body was empty or
unparsable).  Returns `none` for `undefined` results. -/
def requestUnwrap (parsed : Option Json) : Except String (Option Json) :=
  match parsed with
  | none => .ok none
  | some v =>
    if !(jsTruthy v) then .ok none
    else if isCloudflareEnvelope v then
      if !(jsTruthy ((jsonField v "success").getD .null)) then
        .error (envelopeErrorMessage v)
      else .ok (jsonField v "result")
    else .ok (some v)

/-- C6: For every 2xx response body that is an object with both a
`success` and a `result` key, the adapter unwraps the envelope: with
`success` equal to `true` it yields the inner `result`, and with `success`
equal to `false` it fails — with the message of the first entry of the
`errors` list when one is present, and with the default message
`"Unknown Cloudflare Sandbox API error"` when the errors list is empty or
absent. -/
theorem requestUnwrap_envelope (fields : List (String × Json)) (sv : Json)
    (hs : jsonField (Json.obj fields) "success" = some sv)
    (hr : (jsonField (Json.obj fields) "result").isSome = true) :
    (sv = Json.bool true →
      requestUnwrap (some (Json.obj fields)) =
        .ok (jsonField (Json.obj fields) "result")) ∧
    (sv = Json.bool false →
      (∀ e rest m, jsonField (Json.obj fields) "errors" = some (.arr (e :: rest)) →
        jsonField e "message" = some (.str m) →
        requestUnwrap (some (Json.obj fields)) = .error m) ∧
      ((jsonField (Json.obj fields) "errors" = none ∨
          jsonField (Json.obj fields) "errors" = some (.arr [])) →
        requestUnwrap (some (Json.obj fields)) =
          .error "Unknown Cloudflare Sandbox API error")) := by
  have henv : isCloudflareEnvelope (Json.obj fields) = true := by
    rw [isCloudflareEnvelope]
    rw [hs]
    rw [Bool.and_eq_true]
    exact ⟨rfl, hr⟩
  constructor
  · intro hsv
    subst hsv
    rw [requestUnwrap]
    rw [show jsTruthy (Json.obj fields) = true from rfl]
    rw [henv, hs]
    rfl
  · intro hsv
    subst hsv
    have hfail : requestUnwrap (some (Json.obj fields)) =
        .error (envelopeErrorMessage (Json.obj fields)) := by
      rw [requestUnwrap]
      rw [show jsTruthy (Json.obj fields) = true from rfl]
      rw [henv, hs]
      rfl
    constructor
    · intro e rest m herr hmsg
      rw [hfail, envelopeErrorMessage]
      simp only [herr, hmsg]
    · intro herr
      rw [hfail, envelopeErrorMessage]
      rcases herr with herr | herr <;> simp only [herr]

/-- Witness for C6 at concrete envelopes: a successful envelope yields its
result, a failed envelope with an error entry throws its message, and a
failed envelope without errors throws the default message. -/
theorem requestUnwrap_envelope_witness :
    (requestUnwrap (some (Json.obj
        [("success", Json.bool true), ("result", Json.num 7)])) =
      .ok (some (Json.num 7))) ∧
    (requestUnwrap (some (Json.obj
        [("success", Json.bool false), ("result", Json.null),
         ("errors", Json.arr [Json.obj [("code", Json.num 1),
           ("message", Json.str "boom")]])])) =
      .error "boom") ∧
    (requestUnwrap (some (Json.obj
        [("success", Json.bool false), ("result", Json.null)])) =
      .error "Unknown Cloudflare Sandbox API error") :=
  ⟨(requestUnwrap_envelope
      [("success", Json.bool true), ("result", Json.num 7)]
      (Json.bool true) rfl rfl).1 rfl,
   ((requestUnwrap_envelope
      [("success", Json.bool false), ("result", Json.null),
       ("errors", Json.arr [Json.obj [("code", Json.num 1),
         ("message", Json.str "boom")]])]
      (Json.bool false) rfl rfl).2 rfl).1
      (Json.obj [("code", Json.num 1), ("message", Json.str "boom")]) [] "boom"
      rfl rfl,
   ((requestUnwrap_envelope
      [("success", Json.bool false), ("result", Json.null)]
      (Json.bool false) rfl rfl).2 rfl).2 (Or.inl rfl)⟩

/-! ## Remote backend: record normalization
(`src/cloudflareSandboxClient.ts`, `mapSandbox` / `mapExecResult`)

Upstream records expose every numeric/timestamp field in up to two (for
`lastUsedAt`, three) casing conventions.  Absent fields and `null` fields
are both `none` (the code reads them only through `??`).  Timestamps are
millisecond counts (see the header); `new Date().toISOString()` defaults
are the explicit `nowMs` parameter. -/

structure CloudflareSandboxRecord where
  id : String
  created_at : Option Int
  createdAt : Option Int
  last_used_at : Option Int
  lastActive : Option Int
  last_active : Option Int
  ttl_seconds : Option Int
  ttlSeconds : Option Int
  metadata : Option (List (String × String))
  jurisdiction : Option String
  keep_alive : Option Bool
  keepAlive : Option Bool
  status : Option String
deriving Repr, DecidableEq

structure CloudflareExecRecord where
  command : String
  args : List String
  stdout : String
  stderr : String
  exit_code : Option Int
  exitCode : Option Int
  success : Bool
  duration_ms : Option Int
  durationMs : Option Int
  timed_out : Option Bool
  timedOut : Option Bool
  started_at : Option Int
  startedAt : Option Int
  finished_at : Option Int
  finishedAt : Option Int
deriving Repr, DecidableEq

/-- The normalized `SandboxInfo` of the remote backend (its `types.ts`
variant, with remote-only advisory fields). -/
structure RSandboxInfo where
  id : String
  createdAtMs : Int
  lastUsedAtMs : Int
  ttlSeconds : Option Int
  metadata : Option (List (String × String))
  jurisdiction : Option String
  keepAlive : Option Bool
  status : Option String
deriving Repr, DecidableEq

/-- Model of `mapSandbox(record)`:
`createdAt = record.created_at ?? record.createdAt ?? now`,
`lastUsedAt = record.last_used_at ?? record.lastActive ?? record.last_active ?? createdAt`,
`ttlSeconds = record.ttl_seconds ?? record.ttlSeconds ?? null`, and the
remaining fields passed through with `?? null` defaults. -/
def mapSandbox (nowMs : Int) (r : CloudflareSandboxRecord) : RSandboxInfo :=
  let createdAt := (r.created_at.orElse fun _ => r.createdAt).getD nowMs
  let lastUsedAt := (((r.last_used_at.orElse fun _ => r.lastActive).orElse
    fun _ => r.last_active)).getD createdAt
  { id := r.id
    createdAtMs := createdAt
    lastUsedAtMs := lastUsedAt
    ttlSeconds := r.ttl_seconds.orElse fun _ => r.ttlSeconds
    metadata := r.metadata
    jurisdiction := r.jurisdiction
    keepAlive := r.keep_alive.orElse fun _ => r.keepAlive
    status := r.status }

/-- Model of `mapExecResult(result)`: snake_case preferred, camelCase next, then
the computed defaults (`null`, `0`, `false`, `now`). -/
def mapExecResult (nowMs : Int) (r : CloudflareExecRecord) : ExecResultM :=
  { command := r.command
    args := r.args
    stdout := r.stdout
    stderr := r.stderr
    exitCode := r.exit_code.orElse fun _ => r.exitCode
    success := r.success
    durationMs := (r.duration_ms.orElse fun _ => r.durationMs).getD 0
    timedOut := (r.timed_out.orElse fun _ => r.timedOut).getD false
    startedAtMs := (r.started_at.orElse fun _ => r.startedAt).getD nowMs
    finishedAtMs := (r.finished_at.orElse fun _ => r.finishedAt).getD nowMs }

/-- C7: For every upstream sandbox or exec record, each
numeric/timestamp field of the normalized result equals whichever casing
variant is present (the snake_case spelling taking priority when both
are), and the computed default is used only when the record omits the
field in every spelling. -/
theorem map_prefers_present_fields (nowMs : Int)
    (r : CloudflareSandboxRecord) (e : CloudflareExecRecord) :
    -- createdAt
    (∀ v, r.created_at = some v → (mapSandbox nowMs r).createdAtMs = v) ∧
    (r.created_at = none → ∀ v, r.createdAt = some v →
      (mapSandbox nowMs r).createdAtMs = v) ∧
    (r.created_at = none → r.createdAt = none →
      (mapSandbox nowMs r).createdAtMs = nowMs) ∧
    -- lastUsedAt (three upstream spellings; its default is the already
    -- normalized createdAt value)
    (∀ v, r.last_used_at = some v → (mapSandbox nowMs r).lastUsedAtMs = v) ∧
    (r.last_used_at = none → ∀ v, r.lastActive = some v →
      (mapSandbox nowMs r).lastUsedAtMs = v) ∧
    (r.last_used_at = none → r.lastActive = none → ∀ v, r.last_active = some v →
      (mapSandbox nowMs r).lastUsedAtMs = v) ∧
    (r.last_used_at = none → r.lastActive = none → r.last_active = none →
      (mapSandbox nowMs r).lastUsedAtMs = (mapSandbox nowMs r).createdAtMs) ∧
    -- ttlSeconds
    (∀ v, r.ttl_seconds = some v → (mapSandbox nowMs r).ttlSeconds = some v) ∧
    (r.ttl_seconds = none → (mapSandbox nowMs r).ttlSeconds = r.ttlSeconds) ∧
    -- exitCode
    (∀ v, e.exit_code = some v → (mapExecResult nowMs e).exitCode = some v) ∧
    (e.exit_code = none → (mapExecResult nowMs e).exitCode = e.exitCode) ∧
    -- durationMs
    (∀ v, e.duration_ms = some v → (mapExecResult nowMs e).durationMs = v) ∧
    (e.duration_ms = none → ∀ v, e.durationMs = some v →
      (mapExecResult nowMs e).durationMs = v) ∧
    (e.duration_ms = none → e.durationMs = none →
      (mapExecResult nowMs e).durationMs = 0) ∧
    -- startedAt
    (∀ v, e.started_at = some v → (mapExecResult nowMs e).startedAtMs = v) ∧
    (e.started_at = none → ∀ v, e.startedAt = some v →
      (mapExecResult nowMs e).startedAtMs = v) ∧
    (e.started_at = none → e.startedAt = none →
      (mapExecResult nowMs e).startedAtMs = nowMs) ∧
    -- finishedAt
    (∀ v, e.finished_at = some v → (mapExecResult nowMs e).finishedAtMs = v) ∧
    (e.finished_at = none → ∀ v, e.finishedAt = some v →
      (mapExecResult nowMs e).finishedAtMs = v) ∧
    (e.finished_at = none → e.finishedAt = none →
      (mapExecResult nowMs e).finishedAtMs = nowMs) := by
  refine ⟨?_, ?_, ?_, ?_, ?_, ?_, ?_, ?_, ?_, ?_, ?_, ?_, ?_, ?_, ?_, ?_, ?_,
    ?_, ?_, ?_⟩
  · intro v hv
    simp [mapSandbox, hv, Option.orElse]
  · intro h0 v hv
    simp [mapSandbox, h0, hv, Option.orElse]
  · intro h0 h1
    simp [mapSandbox, h0, h1, Option.orElse]
  · intro v hv
    simp [mapSandbox, hv, Option.orElse]
  · intro h0 v hv
    simp [mapSandbox, h0, hv, Option.orElse]
  · intro h0 h1 v hv
    simp [mapSandbox, h0, h1, hv, Option.orElse]
  · intro h0 h1 h2
    simp [mapSandbox, h0, h1, h2, Option.orElse]
  · intro v hv
    simp [mapSandbox, hv, Option.orElse]
  · intro h0
    cases hv : r.ttlSeconds <;> simp [mapSandbox, h0, hv, Option.orElse]
  · intro v hv
    simp [mapExecResult, hv, Option.orElse]
  · intro h0
    cases hv : e.exitCode <;> simp [mapExecResult, h0, hv, Option.orElse]
  · intro v hv
    simp [mapExecResult, hv, Option.orElse]
  · intro h0 v hv
    simp [mapExecResult, h0, hv, Option.orElse]
  · intro h0 h1
    simp [mapExecResult, h0, h1, Option.orElse]
  · intro v hv
    simp [mapExecResult, hv, Option.orElse]
  · intro h0 v hv
    simp [mapExecResult, h0, hv, Option.orElse]
  · intro h0 h1
    simp [mapExecResult, h0, h1, Option.orElse]
  · intro v hv
    simp [mapExecResult, hv, Option.orElse]
  · intro h0 v hv
    simp [mapExecResult, h0, hv, Option.orElse]
  · intro h0 h1
    simp [mapExecResult, h0, h1, Option.orElse]

/-- Witness for C7 at concrete records: the present spelling is taken
(`created_at`, `lastActive`, `ttlSeconds`) and the default is computed
only when a field is absent in every spelling (`startedAt`). -/
theorem map_prefers_present_fields_witness :
    (mapSandbox 999
      { id := "sb", created_at := some 10, createdAt := none,
        last_used_at := none, lastActive := some 20, last_active := none,
        ttl_seconds := none, ttlSeconds := some 30, metadata := none,
        jurisdiction := none, keep_alive := none, keepAlive := none,
        status := none }).createdAtMs = 10 ∧
    (mapSandbox 999
      { id := "sb", created_at := some 10, createdAt := none,
        last_used_at := none, lastActive := some 20, last_active := none,
        ttl_seconds := none, ttlSeconds := some 30, metadata := none,
        jurisdiction := none, keep_alive := none, keepAlive := none,
        status := none }).lastUsedAtMs = 20 ∧
    (mapSandbox 999
      { id := "sb", created_at := some 10, createdAt := none,
        last_used_at := none, lastActive := some 20, last_active := none,
        ttl_seconds := none, ttlSeconds := some 30, metadata := none,
        jurisdiction := none, keep_alive := none, keepAlive := none,
        status := none }).ttlSeconds = some 30 ∧
    (mapExecResult 999
      { command := "echo", args := [], stdout := "", stderr := "",
        exit_code := none, exitCode := some 0, success := true,
        duration_ms := none, durationMs := none, timed_out := none,
        timedOut := none, started_at := none, startedAt := none,
        finished_at := none, finishedAt := none }).startedAtMs = 999 := by
  obtain ⟨c1, c2, c3, c4, c5, c6, c7, c8, c9, c10, c11, c12, c13, c14, c15,
    c16, c17, c18, c19, c20⟩ := map_prefers_present_fields 999
    { id := "sb", created_at := some 10, createdAt := none,
      last_used_at := none, lastActive := some 20, last_active := none,
      ttl_seconds := none, ttlSeconds := some 30, metadata := none,
      jurisdiction := none, keep_alive := none, keepAlive := none,
      status := none }
    { command := "echo", args := [], stdout := "", stderr := "",
      exit_code := none, exitCode := some 0, success := true,
      duration_ms := none, durationMs := none, timed_out := none,
      timedOut := none, started_at := none, startedAt := none,
      finished_at := none, finishedAt := none }
  exact ⟨c1 10 rfl, c5 rfl 20 rfl, c9 rfl, c17 rfl rfl⟩

/-! ## Remote backend: the `Sandbox` handle (`src/sandbox.ts`)

A remote handle holds the client reference (irrelevant to the cached
state), the constructor options and an optional cached `SandboxInfo`.
`updateInfo` replaces the cache from a server-derived `SandboxInfo`
(always a total record: every caller passes `mapSandbox` output or an
explicit literal, so the defensive `?? previous` fallbacks on the three
required fields never fire); `markUsed` stamps the cache with the current
time.  Every remote operation ends by calling `updateInfo` when the
response carried a sandbox record and `markUsed` otherwise. -/

structure RemoteSandbox where
  id : String
  metadata : Option (List (String × String))
  ttlSeconds : Option Int
  info : Option RSandboxInfo
deriving Repr, DecidableEq

/-- Model of `Sandbox.updateInfo(info)` (`src/sandbox.ts` lines 44-60). -/
def RemoteSandbox.updateInfo (s : RemoteSandbox) (info : RSandboxInfo) :
    RemoteSandbox :=
  let previous := s.info
  let ttl := (info.ttlSeconds.orElse fun _ =>
    previous.bind RSandboxInfo.ttlSeconds).orElse fun _ => s.ttlSeconds
  { s with
    info := some
      { id := info.id,
        createdAtMs := info.createdAtMs,
        lastUsedAtMs := info.lastUsedAtMs,
        ttlSeconds := ttl,
        metadata := (info.metadata.orElse fun _ =>
          previous.bind RSandboxInfo.metadata).orElse fun _ => s.metadata,
        jurisdiction := info.jurisdiction.orElse fun _ =>
          previous.bind RSandboxInfo.jurisdiction,
        keepAlive := info.keepAlive.orElse fun _ =>
          previous.bind RSandboxInfo.keepAlive,
        status := info.status.orElse fun _ =>
          previous.bind RSandboxInfo.status },
    ttlSeconds := if ttl.isSome then ttl else s.ttlSeconds }

/-- Model of `Sandbox.markUsed(date)` (`src/sandbox.ts` lines 62-78). -/
def RemoteSandbox.markUsed (s : RemoteSandbox) (nowMs : Int) : RemoteSandbox :=
  match s.info with
  | some i => { s with info := some ({ i with lastUsedAtMs := nowMs }) }
  | none =>
    let fresh : RSandboxInfo :=
      { id := s.id, createdAtMs := nowMs, lastUsedAtMs := nowMs,
        ttlSeconds := s.ttlSeconds, metadata := s.metadata,
        jurisdiction := none, keepAlive := none, status := none }
    { s with info := some fresh }

/-- Model of `Sandbox.assertInfo()`: throw until metadata has been cached. -/
def RemoteSandbox.assertInfo (s : RemoteSandbox) : Except String RSandboxInfo :=
  match s.info with
  | none => .error "Sandbox metadata has not been loaded yet"
  | some i => .ok i

/-- Model of `Sandbox.toInfo()`. -/
def RemoteSandbox.toInfo (s : RemoteSandbox) : Except String RSandboxInfo :=
  s.assertInfo

/-- Model of `Sandbox.applyInfo(info)` (public wrapper over `updateInfo`; `refresh`
also ends in `updateInfo` with the server's mapped record). -/
def RemoteSandbox.applyInfo (s : RemoteSandbox) (info : RSandboxInfo) :
    RemoteSandbox :=
  s.updateInfo info

/-- The metadata effect shared by every remote operation (`exec`,
`writeFile`, `readFile`, `deletePath`, `ensureDirectory`, `listDirectory`,
`touch`, `dispose`): `updateInfo` when the response carried a sandbox
record, `markUsed` otherwise. -/
def RemoteSandbox.afterServerResponse (s : RemoteSandbox)
    (serverInfo : Option RSandboxInfo) (nowMs : Int) : RemoteSandbox :=
  match serverInfo with
  | some i => s.updateInfo i
  | none => s.markUsed nowMs

/-- C8 counterexample: On the remote backend a successful operation
does not keep `lastUsedAt` monotone, nor `lastUsedAt >= createdAt`: a
handle cached at `createdAt = lastUsedAt = 100` that refreshes against a
server record carrying only `last_used_at = 50` (mapped at time 200, so
`createdAt` defaults to 200) ends with `lastUsedAt = 50 < createdAt = 200`
and below the previous `lastUsedAt = 100`. -/
theorem remote_lastUsedAt_counterexample :
    ((RemoteSandbox.updateInfo
        ⟨"sb", none, none, some ⟨"sb", 100, 100, none, none, none, none, none⟩⟩
        (mapSandbox 200
          ⟨"sb", none, none, some 50, none, none, none, none, none, none, none,
            none, none⟩)).info.map RSandboxInfo.lastUsedAtMs = some 50) ∧
    ((RemoteSandbox.updateInfo
        ⟨"sb", none, none, some ⟨"sb", 100, 100, none, none, none, none, none⟩⟩
        (mapSandbox 200
          ⟨"sb", none, none, some 50, none, none, none, none, none, none, none,
            none, none⟩)).info.map RSandboxInfo.createdAtMs = some 200) ∧
    (50 : Int) < 200 ∧ (50 : Int) < 100 :=
  ⟨rfl, rfl, by decide, by decide⟩

/-- C8 amended: On the local backend the invariant holds: starting
from a handle with `createdAt <= lastUsedAt` (the constructor reads the
clock for `createdAt` first and `lastUsedAt` second), running any sequence
of successful operations — each of which calls `touch()` at its completion
time, the times non-decreasing as produced by a monotone clock — leaves
`createdAt` unchanged and `lastUsedAt` non-decreasing, so
`lastUsedAt >= createdAt` holds at every point.  On the remote backend the
cached `lastUsedAt` mirrors server-supplied metadata and may decrease or
fall below `createdAt` (see the counterexample). -/
theorem local_lastUsedAt_monotone (s : LocalSandbox) (opTimes : List Int)
    (hinit : s.createdAtMs ≤ s.lastUsedAtMs)
    (hchain : List.Chain (· ≤ ·) s.lastUsedAtMs opTimes) :
    (s.runOps opTimes).createdAtMs = s.createdAtMs ∧
    s.lastUsedAtMs ≤ (s.runOps opTimes).lastUsedAtMs ∧
    (s.runOps opTimes).createdAtMs ≤ (s.runOps opTimes).lastUsedAtMs := by
  induction opTimes generalizing s with
  | nil => exact ⟨rfl, le_refl _, hinit⟩
  | cons t ts ih =>
    rw [List.chain_cons] at hchain
    have hstep := ih (s.touch t)
      (le_trans hinit hchain.1) hchain.2
    refine ⟨hstep.1, ?_, hstep.2.2⟩
    exact le_trans hchain.1 hstep.2.1

/-- Witness for the amended C8 at a concrete run: a sandbox created at 10
and initialized at 12, touched by operations completing at 12, 20 and 30,
keeps `createdAt = 10` and ends with `lastUsedAt = 30 >= 12`. -/
theorem local_lastUsedAt_monotone_witness :
    ((LocalSandbox.runOps ⟨"a", "/r/a", 10, 12, none⟩ [12, 20, 30]).createdAtMs
      = 10) ∧
    ((12 : Int) ≤
      (LocalSandbox.runOps ⟨"a", "/r/a", 10, 12, none⟩ [12, 20, 30]).lastUsedAtMs) ∧
    ((LocalSandbox.runOps ⟨"a", "/r/a", 10, 12, none⟩ [12, 20, 30]).createdAtMs ≤
      (LocalSandbox.runOps ⟨"a", "/r/a", 10, 12, none⟩ [12, 20, 30]).lastUsedAtMs) :=
  local_lastUsedAt_monotone ⟨"a", "/r/a", 10, 12, none⟩ [12, 20, 30]
    (by decide)
    (List.Chain.cons (by decide)
      (List.Chain.cons (by decide) (List.Chain.cons (by decide) List.Chain.nil)))

/-- C10: A remote `Sandbox` handle constructed without a `SandboxInfo`
throws `"Sandbox metadata has not been loaded yet"` from `toInfo()`; after
`applyInfo` (and `refresh`, which ends in the same `updateInfo`) or after
any operation's completion (`updateInfo` or `markUsed`), `toInfo()`
returns a `SandboxInfo` without throwing. -/
theorem remote_toInfo_spec :
    (∀ (id : String) (metadata : Option (List (String × String)))
        (ttlSeconds : Option Int),
      RemoteSandbox.toInfo
        { id := id, metadata := metadata, ttlSeconds := ttlSeconds,
          info := none } =
        .error "Sandbox metadata has not been loaded yet") ∧
    (∀ (s : RemoteSandbox) (i : RSandboxInfo),
      ∃ j, RemoteSandbox.toInfo (s.applyInfo i) = .ok j) ∧
    (∀ (s : RemoteSandbox) (serverInfo : Option RSandboxInfo) (nowMs : Int),
      ∃ j, RemoteSandbox.toInfo (s.afterServerResponse serverInfo nowMs) =
        .ok j) := by
  refine ⟨fun id metadata ttlSeconds => rfl, fun s i => ⟨_, rfl⟩, ?_⟩
  intro s serverInfo nowMs
  cases serverInfo with
  | some i => exact ⟨_, rfl⟩
  | none =>
    rw [RemoteSandbox.afterServerResponse, RemoteSandbox.markUsed]
    cases s.info with
    | some i => exact ⟨_, rfl⟩
    | none => exact ⟨_, rfl⟩
